import Mathlib

/-!
Verification of the withmock code-generation and caching engine.

Go strings are modelled as `List Char` (one `Char` per byte; all inputs of
interest are ASCII).  Each definition is a shallow embedding of the function
of the same name in the repository sources (`lib/mock.go`, `cache/keys.go`,
and the utility files).
-/

namespace WithMock

/-! ## Scope rewriter: `isLocalExpr`, `isChannel`, `scopeName` (lib/mock.go 21-67) -/

/-- Predeclared Go type names rejected by `isLocalExpr` (lib/mock.go 25-34). -/
def predeclared : List (List Char) :=
  ["int", "int8", "int16", "int32", "int64",
   "uint", "uint8", "uint16", "uint32", "uint64",
   "rune", "byte", "uintptr", "float32", "float64",
   "string", "bool", "error", "complex64", "complex128"].map String.data

/-- Embedding of `isLocalExpr` (lib/mock.go 21-42): an expression is "local"
unless it is a predeclared type, a literal struct or interface type, or
contains a qualifying dot. -/
def isLocalExpr (expr : List Char) : Bool :=
  if expr ∈ predeclared then false
  else if ("struct\x7b".data).isPrefixOf expr then false
  else if ("interface\x7b".data).isPrefixOf expr then false
  else !(expr.contains '.')

/-- The channel keywords recognised by `isChannel` (lib/mock.go 49-52).
Note the third entry is the literal `"chan->"` from the source. -/
def chanForms : List (List Char) :=
  ["chan", "<-chan", "chan->"].map String.data

/-- Embedding of `isChannel` (lib/mock.go 44-54): if the expression contains
no space, both results are empty; otherwise split at the first space, and if
the part before it is one of `chanForms`, return it together with the
remainder after the space (empty results otherwise). -/
def isChannel (expr : List Char) : List Char × List Char :=
  match expr.dropWhile (fun c => c ≠ ' ') with
  | [] => ([], [])
  | _ :: sub =>
    if expr.takeWhile (fun c => c ≠ ' ') ∈ chanForms then
      (expr.takeWhile (fun c => c ≠ ' '), sub)
    else
      ([], [])

set_option linter.unusedVariables false in
/-- Embedding of `scopeName` (lib/mock.go 56-67): rewrite a slice prefix,
then a channel form (`isChannel` returning a nonempty keyword), then qualify
a bare local identifier with the scope; anything else passes through. -/
def scopeName (name scope : List Char) : List Char :=
  match name with
  | '[' :: ']' :: rest => '[' :: ']' :: scopeName rest scope
  | other =>
    if h : (isChannel other).1 ≠ [] then
      (isChannel other).1 ++ ' ' :: scopeName (isChannel other).2 scope
    else if isLocalExpr other then scope ++ '.' :: other else other
termination_by name.length
decreasing_by
  · simp only [List.length_cons]; omega
  · unfold isChannel at h ⊢
    split at h
    next => exact absurd rfl h
    next c tl heq =>
      have hle : (List.dropWhile (fun c => c ≠ ' ') other).length ≤ other.length :=
        (List.dropWhile_suffix _).sublist.length_le
      rw [heq] at hle
      simp only [List.length_cons] at hle
      split at h
      next hin =>
        simp only [heq, hin, if_true]
        omega
      next => exact absurd rfl h

/-- `scopeName` on Lean `String`s. -/
def scopeNameS (name scope : String) : String :=
  ⟨scopeName name.data scope.data⟩

/-! ## Import marks: `markImport`, `getMark` (the utility source file, 109-147) -/

/-- The mark constants (utility source 117-123), as the strings they are in
the source: no mark, normal `+`, mock `_`, test `@`, replace `=`. -/
def noMark : List Char := []

def normalMark : List Char := ['+']

def mockMark : List Char := ['_']

def testMark : List Char := ['@']

def replaceMark : List Char := ['=']

/-- Embedding of `markImport` (utility source 125-134).  `none` models the
panics: the `default` branch for an unknown mark, and `name[1:]` on an empty
name. -/
def markImport (name : List Char) (m : List Char) : Option (List Char) :=
  if m = noMark ∨ m = normalMark then
    some name
  else if m = mockMark ∨ m = testMark ∨ m = replaceMark then
    match name with
    | [] => none
    | _ :: tail => some (m ++ tail)
  else
    none

/-- Embedding of `getMark` (utility source 136-147); `none` models the panic
of `label[0]` on an empty label. -/
def getMark (label : List Char) : Option (List Char) :=
  match label with
  | [] => none
  | c :: _ =>
    if c = '_' then some mockMark
    else if c = '@' then some testMark
    else if c = '=' then some replaceMark
    else some normalMark

/-! ## Content-addressed cache keys (cache/keys.go) -/

/-- One hexadecimal digit. -/
def hexDigit (n : Nat) : Char :=
  if n < 10 then Char.ofNat ('0'.toNat + n) else Char.ofNat ('a'.toNat + n - 10)

/-- A fixed-length (8 digit) hexadecimal rendering of a natural number. -/
def toHex8 (n : Nat) : String :=
  ⟨(List.range 8).map (fun i => hexDigit (n / 16 ^ (7 - i) % 16))⟩

/-- Modelled from the spec: `NewCacheHash` (the digest written to by
`calcHash`) is not among the provided sources; the spec requires a
deterministic digest of the serialized key rendered as a fixed-length
hexadecimal string.  We model it as a deterministic fold digested to 8 hex
characters. -/
def cacheDigest (s : String) : String :=
  toHex8 (s.data.foldl (fun a c => (a * 131 + c.toNat) % 2 ^ 32) 5381)

/-- JSON escaping for one character (quote and backslash). -/
def jsonEscapeChar (c : Char) : List Char :=
  if c = '"' then ['\\', '"'] else if c = '\\' then ['\\', '\\'] else [c]

/-- A JSON string literal. -/
def jsonStr (s : String) : String :=
  ⟨'"' :: s.data.foldr (fun c acc => jsonEscapeChar c ++ acc) ['"']⟩

/-- The canonical encoding produced by `json.NewEncoder(h).Encode(k)` for a
`CacheFileKey` (cache/keys.go 15-20, 50-60): the three exported fields in
declaration order, then the encoder's trailing newline.  The unexported
`hash` memo field is not serialized. -/
def encodeKey (self op : String) (files : List String) : String :=
  "\x7b\"self\":" ++ jsonStr self ++ ",\"op\":" ++ jsonStr op ++
    ",\"files\":[" ++ String.intercalate (",") (files.map jsonStr) ++ "]\x7d\n"

/-- Embedding of `CacheFileKey` (cache/keys.go 15-20).  `hash` is the
unexported memo field, `""` (the Go zero value) when not yet computed. -/
structure CacheFileKey where
  Self : String
  Op : String
  Files : List String
  hash : String
deriving DecidableEq

/-- Embedding of `calcHash` (cache/keys.go 50-60). -/
def CacheFileKey.calcHash (k : CacheFileKey) : CacheFileKey :=
  { k with hash := cacheDigest (encodeKey k.Self k.Op k.Files) }

/-- Embedding of `Hash` (cache/keys.go 42-48): compute and memoize the digest
on first use, afterwards return the memo.  The pair is (returned string,
key after the call). -/
def CacheFileKey.Hash (k : CacheFileKey) : String × CacheFileKey :=
  if k.hash = "" then
    ((k.calcHash).hash, k.calcHash)
  else
    (k.hash, k)

/-- How many digest computations one `Hash` call performs (the `calcHash`
branch of cache/keys.go 42-48 runs exactly when the memo is empty). -/
def CacheFileKey.hashComputations (k : CacheFileKey) : Nat :=
  if k.hash = "" then 1 else 0

/-- Embedding of `utils.Err` (the utils source file, 11-14): an error
wrapped with one context label. -/
structure utilsErr (E : Type) where
  Ctxt : String
  Err : E
deriving DecidableEq

/-- The resolution loop of `NewCacheFileKey` (cache/keys.go 25-33): resolve
each input in order; the first failure aborts with the wrapped context
`c.getDetails(<src>)`. -/
def resolveFiles {E : Type} (lookup : String → Except E String) :
    List String → Except (utilsErr E) (List String)
  | [] => Except.ok []
  | src :: rest =>
    match lookup src with
    | Except.error e => Except.error ⟨"c.getDetails(" ++ src ++ ")", e⟩
    | Except.ok f =>
      match resolveFiles lookup rest with
      | Except.error err2 => Except.error err2
      | Except.ok fs => Except.ok (f :: fs)

/-- Embedding of `Cache.NewCacheFileKey` (cache/keys.go 22-40), parameterized
by the `lookupDetails` resolver.  On success the struct literal leaves the
`hash` memo at its zero value `""`. -/
def NewCacheFileKey {E : Type} (lookup : String → Except E String)
    (self op : String) (srcs : List String) : Except (utilsErr E) CacheFileKey :=
  match resolveFiles lookup srcs with
  | Except.error e => Except.error e
  | Except.ok files => Except.ok ⟨self, op, files, ""⟩

/-! ## Generated toggle state (lib/mock.go 905-951) -/

/-- The process-wide toggle state of a generated package: `_allMocked`,
`_enabledMocks`, `_disabledMocks` (lib/mock.go 905-911). -/
structure toggleState where
  allMocked : Bool
  enabledMocks : Finset String
  disabledMocks : Finset String
deriving DecidableEq

/-- The scaffold's initial state (lib/mock.go 906-908): flag false, both maps
freshly made and empty. -/
def resetToggleState : toggleState := ⟨false, ∅, ∅⟩

/-- Generated `MockAll` (lib/mock.go 933-937): set the flag, empty both maps. -/
def MockAll (_s : toggleState) (enabled : Bool) : toggleState := ⟨enabled, ∅, ∅⟩

/-- One iteration of the generated `EnableMock` loop (lib/mock.go 940-943). -/
def enableOne (s : toggleState) (name : String) : toggleState :=
  { s with
    enabledMocks := insert name s.enabledMocks
    disabledMocks := s.disabledMocks.erase name }

/-- Generated `EnableMock` (lib/mock.go 939-944). -/
def EnableMock (s : toggleState) (names : List String) : toggleState :=
  names.foldl enableOne s

/-- One iteration of the generated `DisableMock` loop (lib/mock.go 947-950). -/
def disableOne (s : toggleState) (name : String) : toggleState :=
  { s with
    disabledMocks := insert name s.disabledMocks
    enabledMocks := s.enabledMocks.erase name }

/-- Generated `DisableMock` (lib/mock.go 946-951). -/
def DisableMock (s : toggleState) (names : List String) : toggleState :=
  names.foldl disableOne s

/-- One call on the generated control surface. -/
inductive toggleOp where
  | enable (names : List String)
  | disable (names : List String)
  | mockAll (b : Bool)

def applyToggleOp (s : toggleState) : toggleOp → toggleState
  | .enable names => EnableMock s names
  | .disable names => DisableMock s names
  | .mockAll b => MockAll s b

def runToggleOps (s : toggleState) (ops : List toggleOp) : toggleState :=
  ops.foldl applyToggleOp s

/-- The two name sets are disjoint. -/
def toggleDisjoint (s : toggleState) : Prop :=
  ∀ n, n ∈ s.enabledMocks → n ∉ s.disabledMocks

/-! ## Dispatcher semantics (lib/mock.go 234-364) -/

/-- Go types appearing as declared result types. -/
inductive GoType where
  | tInt
  | tString
  | tBool
  | tSlice (elem : GoType)
deriving DecidableEq

/-- Values boxed into `interface\x7b\x7d`: a dynamically typed value, or the
typeless nil interface. -/
inductive GoValue where
  | vInt (n : Int)
  | vString (s : String)
  | vBool (b : Bool)
  | vSlice (elem : GoType) (elems : List GoValue)
  | vNil

/-- The dynamic type of a boxed value (`none` for the nil interface). -/
def typeOfVal : GoValue → Option GoType
  | .vInt _ => some .tInt
  | .vString _ => some .tString
  | .vBool _ => some .tBool
  | .vSlice t _ => some (.tSlice t)
  | .vNil => none

/-- The zero value of a declared type. -/
def zeroValue : GoType → GoValue
  | .tInt => .vInt 0
  | .tString => .vString ""
  | .tBool => .vBool false
  | .tSlice t => .vSlice t []

/-- A Go type assertion `v.(t)`: succeeds exactly when the dynamic type is
`t`. -/
def typeAssert (t : GoType) (v : GoValue) : Option GoValue :=
  if typeOfVal v = some t then some v else none

/-- The comma-ok coercion `ret%d, _ := ret[%d].(%s)` (lib/mock.go 351): the
value when the assertion succeeds, the type's zero value otherwise. -/
def coerce (t : GoType) (v : GoValue) : GoValue :=
  (typeAssert t v).getD (zeroValue t)

/-- The result destructuring of the generated dispatcher (lib/mock.go
350-362): index the controller's returned list once per declared result type
and coerce.  `none` models the panic of `ret[i]` past the end of the list. -/
def mockResults (retTypes : List GoType) (ret : List GoValue) : Option (List GoValue) :=
  if retTypes.length ≤ ret.length then
    some ((retTypes.zip ret).map (fun p => coerce p.1 p.2))
  else
    none

/-- The variadic flattening loop of the generated dispatcher (lib/mock.go
300-310): start from the fixed arguments and append each element of the
variadic slice. -/
def dispatchArgs (fixed varargs : List GoValue) : List GoValue :=
  varargs.foldl (fun args v => args ++ [v]) fixed

/-- The condition of the generated forwarding branch (lib/mock.go 280-281,
318-319): `(!_allMocked && !_enabledMocks[name]) || _disabledMocks[name]`. -/
def useRealCond (ts : toggleState) (scopedName : String) : Bool :=
  (!ts.allMocked && !(decide (scopedName ∈ ts.enabledMocks)))
    || decide (scopedName ∈ ts.disabledMocks)

/-- Semantics of the dispatcher body written by `writeMock` (lib/mock.go
234-364).  `realFn` is the `_real_`-prefixed implementation, taking the fixed
arguments and, for a variadic declaration, the variadic slice; `ctrlCall` is
`_ctrl.Call`; `varargs` is `some vs` exactly for variadic declarations.  The
forwarding branch is only emitted when `realDisabled` is false. -/
def mockDispatch (realDisabled : Bool) (ts : toggleState) (scopedName fname : String)
    (realFn : List GoValue → Option (List GoValue) → List GoValue)
    (ctrlCall : String → List GoValue → List GoValue)
    (retTypes : List GoType)
    (fixed : List GoValue) (varargs : Option (List GoValue)) : Option (List GoValue) :=
  if !realDisabled && useRealCond ts scopedName then
    some (realFn fixed varargs)
  else
    let args :=
      match varargs with
      | none => fixed
      | some vs => dispatchArgs fixed vs
    mockResults retTypes (ctrlCall fname args)

/-! ## Generated `callInits` bracket (lib/mock.go 913-923) -/

/-- Toggle state as seen by the generated `callInits`: `_enabledMocks` can be
`nil` (modelled `none`), and the state also carries `_disabledMocks` and the
controller binding `_ctrl`. -/
structure genState where
  allMocked : Bool
  enabledMocks : Option (Finset String)
  disabledMocks : Finset String
  ctrl : Option String
deriving DecidableEq

/-- Running the collected init functions in order (the loop of lib/mock.go
918-920).  An init either returns the updated process state or fails,
leaving the process state at the point of failure. -/
def runInits (inits : List (genState → Except genState genState)) (s : genState) :
    Except genState genState :=
  match inits with
  | [] => Except.ok s
  | f :: rest =>
    match f s with
    | Except.ok s2 => runInits rest s2
    | Except.error sf => Except.error sf

/-- Embedding of the generated `callInits` (lib/mock.go 913-923): save
`_allMocked` and `_enabledMocks`, set them to `false` and `nil`, run the
inits, and write the saved values back.  The restore statements follow the
loop with no `defer`, so a failing init propagates without them. -/
def callInits (inits : List (genState → Except genState genState)) (s : genState) :
    Except genState genState :=
  let mocked := s.allMocked
  let enabledMocks := s.enabledMocks
  match runInits inits { s with allMocked := false, enabledMocks := none } with
  | Except.ok s2 => Except.ok { s2 with allMocked := mocked, enabledMocks := enabledMocks }
  | Except.error sf => Except.error sf

/-! ## Package scaffold recorder emission (lib/mock.go 957-988, 1278-1289) -/

/-- The declarations the scaffold can emit per recorder entry: the wrapper
struct `Mock_<name>`, the constructor `New<name>`, the recorder struct, and
the recorder-returning accessor. -/
inductive emitItem where
  | mockType (name : List Char)
  | newCtor (name : List Char)
  | recType (rec : List Char) (base : List Char)
  | objExpect (base : List Char) (rec : List Char)
deriving DecidableEq

/-- Go map read on an association list. -/
def assocLookup : List (List Char × List Char) → List Char → Option (List Char)
  | [], _ => none
  | (k, v) :: rest, key => if k = key then some v else assocLookup rest key

/-- `ast.IsExported`: the first character is upper case. -/
def goIsExportedL : List Char → Bool
  | [] => false
  | c :: _ => c.isUpper

/-- What the loop body of lib/mock.go 957-988 emits for one `recorders`
entry: a pointer-keyed entry (`base[0] == '*'`) whose starless base is also
registered is skipped entirely; otherwise the `Mock_` struct and constructor
are emitted exactly for an unexported non-interface base name, then the
recorder struct and the accessor.  Registered keys are always nonempty, so
`head?` faithfully renders the `base[0]` test. -/
def entryItems (reg : List (List Char × List Char)) (isIf : List Char → Bool)
    (base rec : List Char) : List emitItem :=
  if base.head? = some '*' ∧ (assocLookup reg base.tail).isSome then []
  else
    let nm := if base.head? = some '*' then base.tail else base
    (if !isIf nm && !goIsExportedL nm then [emitItem.mockType nm, emitItem.newCtor nm]
     else [])
      ++ [emitItem.recType rec base, emitItem.objExpect base rec]

/-- Everything the recorder loop of `mockGen.pkg` emits (lib/mock.go
957-988), for a `recorders` map given as an association list. -/
def emitRecorderItems (reg : List (List Char × List Char)) (isIf : List Char → Bool) :
    List emitItem :=
  (reg.map (fun p => entryItems reg isIf p.1 p.2)).flatten

/-- The recorder name registered for a receiver type expression (lib/mock.go
1283-1289): `_<starless base>_Rec` (a star receiver renders as `'*'` followed
by the base type's rendering, and registration strips it). -/
def recorderNameFor (recvExpr : List Char) : List Char :=
  if recvExpr.head? = some '*' then '_' :: recvExpr.tail ++ ("_Rec").data
  else '_' :: recvExpr ++ ("_Rec").data

/-- An init function leaves `_disabledMocks` and `_ctrl` unchanged, whether
it returns or fails. -/
def preservesFrame (f : genState → Except genState genState) : Prop :=
  ∀ t, match f t with
       | Except.ok t2 => t2.disabledMocks = t.disabledMocks ∧ t2.ctrl = t.ctrl
       | Except.error tf => tf.disabledMocks = t.disabledMocks ∧ tf.ctrl = t.ctrl

/-! ## Theorems -/

/-- C2: evaluation of `scopeName` on channel-typed textual forms.  The
serializer-producible bidirectional `"chan X"` and receive-only `"<-chan X"`
forms are rewritten below the direction prefix, but the send-only form
`"chan<- Foo"` — which the serializer does produce — is not matched by
`isChannel` (whose third keyword is the unreachable `"chan->"`) and is
instead treated as a bare local identifier, yielding `"pkg.chan<- Foo"`
rather than `"chan<- pkg.Foo"`. -/
theorem scopeName_chan_directions :
    scopeNameS ("chan Foo") ("pkg") = "chan pkg.Foo" ∧
    scopeNameS ("<-chan Foo") ("pkg") = "<-chan pkg.Foo" ∧
    scopeNameS ("chan<- Foo") ("pkg") = "pkg.chan<- Foo" ∧
    scopeNameS ("chan-> Foo") ("pkg") = "chan-> pkg.Foo" := by
  refine ⟨?_, ?_, ?_, ?_⟩ <;>
    · simp only [scopeNameS]
      apply congrArg String.mk
      simp +decide [scopeName,
        show isChannel (("chan Foo").data) = (("chan").data, ("Foo").data) from by decide,
        show isChannel (("<-chan Foo").data) = (("<-chan").data, ("Foo").data) from by decide,
        show isChannel (("chan-> Foo").data) = (("chan->").data, ("Foo").data) from by decide,
        show isChannel (("Foo").data) = ([], []) from by decide]

/-- C10: for a non-empty name, marking with a mock/test/replace mark replaces
the first character by the sigil (same length as the input), no mark and the
normal mark return the name unchanged, `getMark` recovers the sigil mark from
a marked name, and `getMark` of a label starting with none of the three
sigils is the normal mark. -/
theorem markImport_getMark_spec (name : List Char) (m : List Char) (c : Char)
    (rest : List Char) (hn : name ≠ [])
    (hm : m = mockMark ∨ m = testMark ∨ m = replaceMark)
    (hc : c ≠ '_' ∧ c ≠ '@' ∧ c ≠ '=') :
    markImport name m = some (m ++ name.tail) ∧
    (m ++ name.tail).length = name.length ∧
    markImport name noMark = some name ∧
    markImport name normalMark = some name ∧
    getMark (m ++ name.tail) = some m ∧
    getMark (c :: rest) = some normalMark := by
  obtain ⟨a, t, rfl⟩ : ∃ a t, name = a :: t := by
    cases name with
    | nil => exact absurd rfl hn
    | cons a t => exact ⟨a, t, rfl⟩
  obtain ⟨hc1, hc2, hc3⟩ := hc
  rcases hm with rfl | rfl | rfl <;>
    simp [markImport, getMark, noMark, normalMark, mockMark, testMark, replaceMark,
      hc1, hc2, hc3]

/-- C10 witness. -/
theorem markImport_getMark_spec_witness :
    markImport (("ab").data) mockMark = some (mockMark ++ (("ab").data).tail) ∧
    (mockMark ++ (("ab").data).tail).length = (("ab").data).length ∧
    markImport (("ab").data) noMark = some (("ab").data) ∧
    markImport (("ab").data) normalMark = some (("ab").data) ∧
    getMark (mockMark ++ (("ab").data).tail) = some mockMark ∧
    getMark ('x' :: []) = some normalMark :=
  markImport_getMark_spec (("ab").data) mockMark 'x' [] (by decide)
    (Or.inl rfl) (by decide)

theorem toHex8_length (n : Nat) : (toHex8 n).length = 8 := by
  simp [toHex8, String.length]

theorem cacheDigest_ne_empty (s : String) : cacheDigest s ≠ "" := by
  intro h
  have h2 := congrArg String.length h
  rw [cacheDigest, toHex8_length] at h2
  exact absurd h2 (by decide)

theorem Hash_memo_ne_empty (j : CacheFileKey) : j.Hash.2.hash ≠ "" := by
  unfold CacheFileKey.Hash
  by_cases hj : j.hash = ""
  · simp only [hj, if_true]
    exact cacheDigest_ne_empty _
  · simp only [hj, if_false]
    exact hj

/-- C3: `Hash` returns the same string and the same key on a repeated call,
performs no digest computation once the memo is set, and is a pure function
of the key's fields: two keys constructed with identical scope identifier,
operation and ordered fingerprints (and an unset memo, as `NewCacheFileKey`
constructs them) hash identically. -/
theorem CacheFileKey_Hash_spec (k k1 k2 : CacheFileKey)
    (hSelf : k1.Self = k2.Self) (hOp : k1.Op = k2.Op) (hFiles : k1.Files = k2.Files)
    (h1 : k1.hash = "") (h2 : k2.hash = "") :
    k.Hash.2.Hash.1 = k.Hash.1 ∧
    k.Hash.2.Hash.2 = k.Hash.2 ∧
    k.Hash.2.hashComputations = 0 ∧
    k1.Hash.1 = k2.Hash.1 := by
  have hof_ne : ∀ j : CacheFileKey, j.hash ≠ "" → j.Hash = (j.hash, j) := by
    intro j hj
    unfold CacheFileKey.Hash
    rw [if_neg hj]
  have hof_eq : ∀ j : CacheFileKey, j.hash = "" →
      j.Hash = (j.calcHash.hash, j.calcHash) := by
    intro j hj
    unfold CacheFileKey.Hash
    rw [if_pos hj]
  have hmemo : k.Hash.2.hash ≠ "" := Hash_memo_ne_empty k
  have hsnd : k.Hash.2.Hash = (k.Hash.2.hash, k.Hash.2) := hof_ne _ hmemo
  have hfst : k.Hash.1 = k.Hash.2.hash := by
    by_cases hk : k.hash = ""
    · rw [hof_eq _ hk]
    · rw [hof_ne _ hk]
  refine ⟨?_, ?_, ?_, ?_⟩
  · rw [hsnd, hfst]
  · rw [hsnd]
  · unfold CacheFileKey.hashComputations
    rw [if_neg hmemo]
  · rw [hof_eq _ h1, hof_eq _ h2]
    unfold CacheFileKey.calcHash
    simp [hSelf, hOp, hFiles]

/-- C3 witness. -/
theorem CacheFileKey_Hash_spec_witness :
    (⟨"s", "o", ["f1", "f2"], ""⟩ : CacheFileKey).Hash.2.Hash.1 =
      (⟨"s", "o", ["f1", "f2"], ""⟩ : CacheFileKey).Hash.1 ∧
    (⟨"s", "o", ["f1", "f2"], ""⟩ : CacheFileKey).Hash.2.Hash.2 =
      (⟨"s", "o", ["f1", "f2"], ""⟩ : CacheFileKey).Hash.2 ∧
    (⟨"s", "o", ["f1", "f2"], ""⟩ : CacheFileKey).Hash.2.hashComputations = 0 ∧
    (⟨"s", "o", ["f1", "f2"], ""⟩ : CacheFileKey).Hash.1 =
      (⟨"s", "o", ["f1", "f2"], ""⟩ : CacheFileKey).Hash.1 :=
  CacheFileKey_Hash_spec ⟨"s", "o", ["f1", "f2"], ""⟩ ⟨"s", "o", ["f1", "f2"], ""⟩
    ⟨"s", "o", ["f1", "f2"], ""⟩ rfl rfl rfl rfl rfl

theorem enableOne_disjoint {s : toggleState} (h : toggleDisjoint s) (n : String) :
    toggleDisjoint (enableOne s n) := by
  intro x hx hd
  simp only [enableOne] at hx hd
  rcases Finset.mem_insert.mp hx with rfl | hx2
  · exact Finset.not_mem_erase x _ hd
  · exact h x hx2 (Finset.mem_of_mem_erase hd)

theorem disableOne_disjoint {s : toggleState} (h : toggleDisjoint s) (n : String) :
    toggleDisjoint (disableOne s n) := by
  intro x hx hd
  simp only [disableOne] at hx hd
  obtain ⟨hne, hx2⟩ := Finset.mem_erase.mp hx
  rcases Finset.mem_insert.mp hd with rfl | hd2
  · exact hne rfl
  · exact h x hx2 hd2

theorem foldl_disjoint {f : toggleState → String → toggleState}
    (hf : ∀ s n, toggleDisjoint s → toggleDisjoint (f s n)) :
    ∀ (names : List String) (s : toggleState),
      toggleDisjoint s → toggleDisjoint (names.foldl f s) := by
  intro names
  induction names with
  | nil => intro s h; exact h
  | cons n rest ih => intro s h; exact ih (f s n) (hf s n h)

theorem applyToggleOp_disjoint (s : toggleState) (op : toggleOp)
    (h : toggleDisjoint s) : toggleDisjoint (applyToggleOp s op) := by
  cases op with
  | enable names => exact foldl_disjoint (fun s n => enableOne_disjoint (n := n)) names s h
  | disable names => exact foldl_disjoint (fun s n => disableOne_disjoint (n := n)) names s h
  | mockAll b => intro x hx; simp [applyToggleOp, MockAll] at hx

theorem runToggleOps_disjoint :
    ∀ (ops : List toggleOp) (s : toggleState),
      toggleDisjoint s → toggleDisjoint (runToggleOps s ops) := by
  intro ops
  induction ops with
  | nil => intro s h; exact h
  | cons op rest ih => intro s h; exact ih (applyToggleOp s op) (applyToggleOp_disjoint s op h)

/-- C4: from the reset state every sequence of generated `EnableMock`,
`DisableMock` and `MockAll` calls keeps the enabled and disabled sets
disjoint; one `EnableMock` step inserts into enabled and erases from
disabled, one `DisableMock` step inserts into disabled and erases from
enabled, and `MockAll` empties both sets. -/
theorem toggle_sets_disjoint_spec :
    (∀ ops : List toggleOp, toggleDisjoint (runToggleOps resetToggleState ops)) ∧
    (∀ (s : toggleState) (n : String),
      (enableOne s n).enabledMocks = insert n s.enabledMocks ∧
      (enableOne s n).disabledMocks = s.disabledMocks.erase n) ∧
    (∀ (s : toggleState) (n : String),
      (disableOne s n).disabledMocks = insert n s.disabledMocks ∧
      (disableOne s n).enabledMocks = s.enabledMocks.erase n) ∧
    (∀ (s : toggleState) (b : Bool),
      (MockAll s b).enabledMocks = ∅ ∧ (MockAll s b).disabledMocks = ∅) := by
  refine ⟨?_, ?_, ?_, ?_⟩
  · intro ops
    apply runToggleOps_disjoint
    intro x hx
    simp [resetToggleState] at hx
  · intro s n; exact ⟨rfl, rfl⟩
  · intro s n; exact ⟨rfl, rfl⟩
  · intro s b; exact ⟨rfl, rfl⟩

theorem resolveFiles_all_ok {E : Type} (lookup : String → Except E String)
    (f : String → String) :
    ∀ srcs : List String, (∀ s ∈ srcs, lookup s = Except.ok (f s)) →
      resolveFiles lookup srcs = Except.ok (srcs.map f) := by
  intro srcs
  induction srcs with
  | nil => intro _; rfl
  | cons a rest ih =>
    intro h
    have ha := h a (by simp)
    have hrest := ih (fun s hs => h s (by simp [hs]))
    simp [resolveFiles, ha, hrest]

theorem resolveFiles_first_err {E : Type} (lookup : String → Except E String)
    (f : String → String) (src : String) (e : E) (post : List String) :
    ∀ pre : List String, (∀ s ∈ pre, lookup s = Except.ok (f s)) →
      lookup src = Except.error e →
      resolveFiles lookup (pre ++ src :: post) =
        Except.error ⟨"c.getDetails(" ++ src ++ ")", e⟩ := by
  intro pre
  induction pre with
  | nil =>
    intro _ herr
    simp [resolveFiles, herr]
  | cons a rest ih =>
    intro h herr
    have ha := h a (by simp)
    simp [resolveFiles, ha, ih (fun s hs => h s (by simp [hs])) herr]

/-- C9: `NewCacheFileKey` resolves each input in order; if every input
resolves it returns the key holding the scope identifier, the operation and
the fingerprints in input order (memo unset); if some input fails, the key
construction aborts with an error wrapping the failing input's context and
no key. -/
theorem NewCacheFileKey_spec {E : Type} (lookup : String → Except E String)
    (self op : String) (srcs pre post : List String) (f : String → String)
    (src : String) (e : E)
    (hok : ∀ s ∈ srcs, lookup s = Except.ok (f s))
    (hpre : ∀ s ∈ pre, lookup s = Except.ok (f s))
    (herr : lookup src = Except.error e) :
    NewCacheFileKey lookup self op srcs = Except.ok ⟨self, op, srcs.map f, ""⟩ ∧
    NewCacheFileKey lookup self op (pre ++ src :: post) =
      Except.error ⟨"c.getDetails(" ++ src ++ ")", e⟩ := by
  constructor
  · simp [NewCacheFileKey, resolveFiles_all_ok lookup f srcs hok]
  · simp [NewCacheFileKey, resolveFiles_first_err lookup f src e post pre hpre herr]

/-- C9 witness. -/
theorem NewCacheFileKey_spec_witness :
    NewCacheFileKey
        (fun t => if t = "b" then Except.error ("boom") else Except.ok (String.append ("h") t))
        ("scope") ("op") (["a"]) =
      Except.ok ⟨"scope", "op", (["a"]).map (fun t => String.append ("h") t), ""⟩ ∧
    NewCacheFileKey
        (fun t => if t = "b" then Except.error ("boom") else Except.ok (String.append ("h") t))
        ("scope") ("op") (["a"] ++ "b" :: []) =
      Except.error ⟨"c.getDetails(" ++ "b" ++ ")", "boom"⟩ :=
  NewCacheFileKey_spec
    (fun t => if t = "b" then Except.error ("boom") else Except.ok (String.append ("h") t))
    ("scope") ("op") (["a"]) (["a"]) ([]) (fun t => String.append ("h") t) ("b") ("boom")
    (by intro s hs; simp only [List.mem_singleton] at hs; subst hs; rfl)
    (by intro s hs; simp only [List.mem_singleton] at hs; subst hs; rfl)
    (by rfl)

/-- C1: when the symbol is not globally mocked and not explicitly enabled,
or is explicitly disabled (and the forwarding branch is emitted, i.e.
`realDisabled` is false, as it is for every declaration processed by
`mockGen.file`), the dispatcher returns exactly the real implementation
applied to the same fixed arguments and the same variadic slice, for any
controller and declared result types. -/
theorem dispatcher_forwards_real (ts : toggleState) (scopedName fname : String)
    (realFn : List GoValue → Option (List GoValue) → List GoValue)
    (ctrlCall : String → List GoValue → List GoValue)
    (retTypes : List GoType) (fixed : List GoValue) (varargs : Option (List GoValue))
    (h : (ts.allMocked = false ∧ scopedName ∉ ts.enabledMocks) ∨
      scopedName ∈ ts.disabledMocks) :
    mockDispatch false ts scopedName fname realFn ctrlCall retTypes fixed varargs =
      some (realFn fixed varargs) := by
  have hc : useRealCond ts scopedName = true := by
    unfold useRealCond
    rcases h with ⟨ha, he⟩ | hd
    · simp [ha, he]
    · simp [hd]
  unfold mockDispatch
  rw [hc]
  simp

/-- C1 witness. -/
theorem dispatcher_forwards_real_witness :
    mockDispatch false resetToggleState ("Add") ("Add")
        (fun fx vr => fx ++ vr.getD []) (fun _ args => args) [GoType.tInt]
        [GoValue.vInt 2, GoValue.vInt 3] none =
      some ((fun (fx : List GoValue) (vr : Option (List GoValue)) => fx ++ vr.getD [])
        [GoValue.vInt 2, GoValue.vInt 3] none) :=
  dispatcher_forwards_real resetToggleState ("Add") ("Add")
    (fun fx vr => fx ++ vr.getD []) (fun _ args => args) [GoType.tInt]
    [GoValue.vInt 2, GoValue.vInt 3] none
    (Or.inl ⟨rfl, by simp [resetToggleState]⟩)

theorem dispatchArgs_eq_append (fixed varargs : List GoValue) :
    dispatchArgs fixed varargs = fixed ++ varargs := by
  unfold dispatchArgs
  induction varargs generalizing fixed with
  | nil => simp
  | cons v rest ih =>
    simp only [List.foldl_cons]
    rw [ih (fixed ++ [v])]
    simp

theorem no_list_is_its_own_singleton_slice (t : GoType) (l : List GoValue) :
    l ≠ [GoValue.vSlice t l] := by
  intro h
  have hs := congrArg sizeOf h
  simp only [List.cons.sizeOf_spec, List.nil.sizeOf_spec, GoValue.vSlice.sizeOf_spec] at hs
  omega

/-- C5: in mocked mode (the forwarding branch disabled or not taken) a
variadic dispatcher passes the controller the single flat list of the fixed
arguments followed by the elements of the variadic slice, and that list is
never the fixed arguments followed by the boxed variadic slice itself. -/
theorem dispatcher_variadic_flattens (realDisabled : Bool) (ts : toggleState)
    (scopedName fname : String)
    (realFn : List GoValue → Option (List GoValue) → List GoValue)
    (ctrlCall : String → List GoValue → List GoValue)
    (retTypes : List GoType) (fixed vs : List GoValue) (t : GoType)
    (h : realDisabled = true ∨ useRealCond ts scopedName = false) :
    mockDispatch realDisabled ts scopedName fname realFn ctrlCall retTypes fixed (some vs) =
      mockResults retTypes (ctrlCall fname (fixed ++ vs)) ∧
    fixed ++ vs ≠ fixed ++ [GoValue.vSlice t vs] := by
  constructor
  · have hc : (!realDisabled && useRealCond ts scopedName) = false := by
      rcases h with rfl | hc
      · simp
      · simp [hc]
    unfold mockDispatch
    rw [hc]
    simp [dispatchArgs_eq_append]
  · intro he
    exact no_list_is_its_own_singleton_slice t vs (List.append_cancel_left he)

/-- C5 witness. -/
theorem dispatcher_variadic_flattens_witness :
    mockDispatch false ⟨true, ∅, ∅⟩ ("T.M") ("M")
        (fun fx vr => fx ++ vr.getD []) (fun _ args => args) []
        [GoValue.vInt 1, GoValue.vInt 2] (some [GoValue.vInt 3, GoValue.vInt 4]) =
      mockResults []
        ((fun (_ : String) (args : List GoValue) => args) ("M")
          ([GoValue.vInt 1, GoValue.vInt 2] ++ [GoValue.vInt 3, GoValue.vInt 4])) ∧
    [GoValue.vInt 1, GoValue.vInt 2] ++ [GoValue.vInt 3, GoValue.vInt 4] ≠
      [GoValue.vInt 1, GoValue.vInt 2] ++
        [GoValue.vSlice GoType.tInt [GoValue.vInt 3, GoValue.vInt 4]] :=
  dispatcher_variadic_flattens false ⟨true, ∅, ∅⟩ ("T.M") ("M")
    (fun fx vr => fx ++ vr.getD []) (fun _ args => args) []
    [GoValue.vInt 1, GoValue.vInt 2] [GoValue.vInt 3, GoValue.vInt 4] GoType.tInt
    (Or.inr (by simp [useRealCond]))

theorem coerceList_getD (ts : List GoType) (vs : List GoValue) :
    ∀ i, i < ts.length → i < vs.length →
      ((ts.zip vs).map (fun p => coerce p.1 p.2)).getD i GoValue.vNil =
        coerce (ts.getD i GoType.tInt) (vs.getD i GoValue.vNil) := by
  induction ts generalizing vs with
  | nil => intro i h1 _; simp at h1
  | cons t tr ih =>
    intro i h1 h2
    cases vs with
    | nil => simp at h2
    | cons v vr =>
      cases i with
      | zero => simp
      | succ j =>
        simp only [List.zip_cons_cons, List.map_cons, List.getD_cons_succ]
        exact ih vr j (by simpa using h1) (by simpa using h2)

/-- C7: destructuring the controller's returned list produces exactly one
value per declared result type, and an entry whose type assertion fails
yields the declared type's zero value rather than an error. -/
theorem mockResults_zero_on_failed_coercion (retTypes : List GoType)
    (ret : List GoValue) (i : Nat)
    (hlen : retTypes.length ≤ ret.length) (hi : i < retTypes.length)
    (hfail : typeAssert (retTypes.getD i GoType.tInt) (ret.getD i GoValue.vNil) = none) :
    ∃ out, mockResults retTypes ret = some out ∧
      out.length = retTypes.length ∧
      out.getD i GoValue.vNil = zeroValue (retTypes.getD i GoType.tInt) := by
  refine ⟨(retTypes.zip ret).map (fun p => coerce p.1 p.2), ?_, ?_, ?_⟩
  · unfold mockResults
    rw [if_pos hlen]
  · simp [List.length_zip]
    omega
  · rw [coerceList_getD retTypes ret i hi (lt_of_lt_of_le hi hlen)]
    unfold coerce
    rw [hfail]
    rfl

/-- C7 witness. -/
theorem mockResults_zero_on_failed_coercion_witness :
    ∃ out, mockResults [GoType.tInt, GoType.tString]
        [GoValue.vBool true, GoValue.vString ("x")] = some out ∧
      out.length = ([GoType.tInt, GoType.tString]).length ∧
      out.getD 0 GoValue.vNil =
        zeroValue (([GoType.tInt, GoType.tString]).getD 0 GoType.tInt) :=
  mockResults_zero_on_failed_coercion [GoType.tInt, GoType.tString]
    [GoValue.vBool true, GoValue.vString ("x")] 0
    (by decide) (by decide) (by rfl)

/-- C6 counterexample: the claim that the saved flag and enabled set are
restored on all exit paths fails when an init fails.  Starting from a state
with the flag set and one enabled mock, running one failing init leaves the
process with the flag cleared and the enabled set nil: the failure
propagates before the restore statements run. -/
theorem callInits_failure_counterexample :
    callInits [fun t => Except.error t] ⟨true, some {"X"}, ∅, none⟩ =
      Except.error ⟨false, none, ∅, none⟩ ∧
    (⟨false, none, ∅, none⟩ : genState).allMocked ≠
      (⟨true, some {"X"}, ∅, none⟩ : genState).allMocked ∧
    (⟨false, none, ∅, none⟩ : genState).enabledMocks ≠
      (⟨true, some {"X"}, ∅, none⟩ : genState).enabledMocks := by
  refine ⟨rfl, by simp, by simp⟩

theorem runInits_frame (inits : List (genState → Except genState genState))
    (hframe : ∀ f ∈ inits, preservesFrame f) :
    ∀ s : genState,
      (match runInits inits s with
       | Except.ok s2 => s2.disabledMocks = s.disabledMocks ∧ s2.ctrl = s.ctrl
       | Except.error sf => sf.disabledMocks = s.disabledMocks ∧ sf.ctrl = s.ctrl) := by
  induction inits with
  | nil =>
    intro s
    exact ⟨rfl, rfl⟩
  | cons f rest ih =>
    intro s
    have hft := hframe f (by simp) s
    have hrest := ih (fun g hg => hframe g (by simp [hg]))
    unfold runInits
    cases hfs : f s with
    | ok s2 =>
      rw [hfs] at hft
      simp only at hft
      have h2 := hrest s2
      dsimp only
      cases hr : runInits rest s2 with
      | ok s3 =>
        rw [hr] at h2
        simp only at h2
        exact ⟨h2.1.trans hft.1, h2.2.trans hft.2⟩
      | error sf =>
        rw [hr] at h2
        simp only at h2
        exact ⟨h2.1.trans hft.1, h2.2.trans hft.2⟩
    | error sf =>
      rw [hfs] at hft
      simp only at hft
      dsimp only
      exact hft

/-- C6 amended: the bracket saves the flag and the enabled set and runs the
inits against a state with the flag cleared and the enabled set nil; when
every init returns, the saved flag and enabled set are written back and
everything else is the inits' final state; when an init fails, the failure
propagates without the restore.  On both paths the bracket itself leaves the
disabled set and the controller binding untouched: when every init preserves
them, so does the whole call. -/
theorem callInits_spec (inits : List (genState → Except genState genState))
    (s : genState) (r : Except genState genState)
    (hframe : ∀ f ∈ inits, preservesFrame f)
    (hr : runInits inits { s with allMocked := false, enabledMocks := none } = r) :
    match r with
    | Except.ok s2 =>
        callInits inits s =
          Except.ok { s2 with allMocked := s.allMocked, enabledMocks := s.enabledMocks } ∧
        s2.disabledMocks = s.disabledMocks ∧ s2.ctrl = s.ctrl
    | Except.error sf =>
        callInits inits s = Except.error sf ∧
        sf.disabledMocks = s.disabledMocks ∧ sf.ctrl = s.ctrl := by
  have hfr := runInits_frame inits hframe { s with allMocked := false, enabledMocks := none }
  rw [hr] at hfr
  cases r with
  | ok s2 =>
    simp only at hfr ⊢
    refine ⟨?_, hfr⟩
    unfold callInits
    rw [hr]
  | error sf =>
    simp only at hfr ⊢
    refine ⟨?_, hfr⟩
    unfold callInits
    rw [hr]

/-- C6 witness (for the amended theorem). -/
theorem callInits_spec_witness :
    callInits [fun t => Except.ok t] ⟨true, some {"A"}, {"D"}, some ("c")⟩ =
      Except.ok ⟨true, some {"A"}, {"D"}, some ("c")⟩ ∧
    ({"D"} : Finset String) = {"D"} ∧
    (some ("c") : Option String) = some ("c") :=
  callInits_spec [fun t => Except.ok t] ⟨true, some {"A"}, {"D"}, some ("c")⟩
    (Except.ok ⟨false, none, {"D"}, some ("c")⟩)
    (by
      intro f hf
      simp only [List.mem_singleton] at hf
      subst hf
      intro t
      exact ⟨rfl, rfl⟩)
    rfl

/-- C8 counterexample: a receiver base type that is exported gets no
constructor in the scaffold (`New<name>` is emitted only for unexported
non-interface base names), even though its recorder accessor is emitted. -/
theorem recorder_ctor_exported_counterexample :
    emitItem.newCtor (("Foo").data) ∉
      emitRecorderItems [((("Foo").data), (("_Foo_Rec").data))] (fun _ => false) ∧
    emitItem.objExpect (("Foo").data) (("_Foo_Rec").data) ∈
      emitRecorderItems [((("Foo").data), (("_Foo_Rec").data))] (fun _ => false) := by
  constructor
  · decide
  · decide

theorem assocLookup_isSome_of_mem {reg : List (List Char × List Char)}
    {k v : List Char} (h : (k, v) ∈ reg) : (assocLookup reg k).isSome := by
  induction reg with
  | nil => simp at h
  | cons p rest ih =>
    rcases p with ⟨k2, v2⟩
    unfold assocLookup
    by_cases hk : k2 = k
    · simp [hk]
    · simp only [hk, if_false]
      rcases List.mem_cons.mp h with he | hm
      · rw [Prod.mk.injEq] at he
        exact absurd he.1.symm hk
      · exact ih hm

theorem entryItems_skip (reg : List (List Char × List Char)) (isIf : List Char → Bool)
    (nm r : List Char) (hsome : (assocLookup reg nm).isSome) :
    entryItems reg isIf ('*' :: nm) r = [] := by
  unfold entryItems
  rw [if_pos ⟨rfl, hsome⟩]

theorem entryItems_value (reg : List (List Char × List Char)) (isIf : List Char → Bool)
    (base r : List Char) (hb : base.head? ≠ some '*') :
    entryItems reg isIf base r =
      (if !isIf base && !goIsExportedL base then
        [emitItem.mockType base, emitItem.newCtor base]
       else []) ++ [emitItem.recType r base, emitItem.objExpect base r] := by
  unfold entryItems
  rw [if_neg (fun hcon => hb hcon.1)]
  simp only [if_neg hb]

theorem count_newCtor_entry_zero (reg : List (List Char × List Char))
    (isIf : List Char → Bool) (b base r : List Char)
    (h1 : base ≠ b) (h2 : base ≠ '*' :: b) :
    (entryItems reg isIf base r).count (emitItem.newCtor b) = 0 := by
  unfold entryItems
  split
  · rfl
  · by_cases hh : base.head? = some '*'
    · obtain ⟨c, bs, rfl⟩ : ∃ c bs, base = c :: bs := by
        cases base with
        | nil => simp at hh
        | cons c bs => exact ⟨c, bs, rfl⟩
      have hc : c = '*' := by simpa using hh
      subst hc
      have hnm : bs ≠ b := fun hcon => h2 (by rw [hcon])
      simp only [if_pos hh, List.tail_cons]
      split <;>
        simp [List.count_append, List.count_cons, hnm]
    · have hnm : base ≠ b := h1
      simp only [if_neg hh]
      split <;>
        simp [List.count_append, List.count_cons, hnm]

theorem count_newCtor_value_entry (reg : List (List Char × List Char))
    (isIf : List Char → Bool) (b r : List Char) (hb : b.head? ≠ some '*')
    (hIf : isIf b = false) (hExp : goIsExportedL b = false) :
    (entryItems reg isIf b r).count (emitItem.newCtor b) = 1 := by
  rw [entryItems_value reg isIf b r hb]
  simp [hIf, hExp, List.count_append, List.count_cons]

/-- C8 amended: pointer and value receivers of one base type register the
same recorder name; when both registrations exist the pointer entry is
skipped entirely, so the constructor for an unexported non-interface base
type is emitted exactly once, and the value entry's accessor is emitted. -/
theorem recorder_emission_spec (reg : List (List Char × List Char))
    (isIf : List Char → Bool) (b r1 r2 : List Char)
    (hkeys : (reg.map Prod.fst).Nodup)
    (h1 : ('*' :: b, r1) ∈ reg) (h2 : (b, r2) ∈ reg)
    (hb : b.head? ≠ some '*')
    (hIf : isIf b = false) (hExp : goIsExportedL b = false) :
    (emitRecorderItems reg isIf).count (emitItem.newCtor b) = 1 ∧
    entryItems reg isIf ('*' :: b) r1 = [] ∧
    emitItem.objExpect b r2 ∈ emitRecorderItems reg isIf ∧
    recorderNameFor ('*' :: b) = recorderNameFor b := by
  have hskip : entryItems reg isIf ('*' :: b) r1 = [] :=
    entryItems_skip reg isIf b r1 (assocLookup_isSome_of_mem h2)
  have hne12 : (b, r2) ≠ ('*' :: b, r1) := by
    intro hcon
    rw [Prod.mk.injEq] at hcon
    exact hb (by rw [hcon.1]; rfl)
  have hp1 := List.perm_cons_erase h1
  have h2e := (List.mem_cons.mp (hp1.mem_iff.mp h2)).resolve_left hne12
  obtain ⟨l2, hp⟩ : ∃ l2, reg.Perm (('*' :: b, r1) :: (b, r2) :: l2) :=
    ⟨_, hp1.trans ((List.perm_cons_erase h2e).cons _)⟩
  refine ⟨?_, hskip, ?_, ?_⟩
  · unfold emitRecorderItems
    rw [List.count_flatten]
    have hsum := ((hp.map (fun p => entryItems reg isIf p.1 p.2)).map
      (List.count (emitItem.newCtor b))).sum_eq
    rw [List.map_map] at hsum ⊢
    rw [hsum]
    simp only [List.map_cons, List.sum_cons, Function.comp_apply]
    have hz : (l2.map (List.count (emitItem.newCtor b) ∘
        fun p => entryItems reg isIf p.1 p.2)).sum = 0 := by
      apply List.sum_eq_zero
      intro x hx
      rcases List.mem_map.mp hx with ⟨p, hp2m, rfl⟩
      have hkeys2 : (('*' :: b) :: b :: (l2.map Prod.fst)).Nodup := by
        have := (hp.map Prod.fst).nodup_iff.mp hkeys
        simpa using this
      have hk1 : p.1 ≠ '*' :: b := by
        intro hcon
        have : ('*' :: b) ∈ b :: (l2.map Prod.fst) :=
          List.mem_cons_of_mem _ (List.mem_map.mpr ⟨p, hp2m, hcon⟩)
        exact (List.nodup_cons.mp hkeys2).1 this
      have hk2 : p.1 ≠ b := by
        intro hcon
        have hmem : b ∈ (l2.map Prod.fst) := List.mem_map.mpr ⟨p, hp2m, hcon⟩
        exact (List.nodup_cons.mp ((List.nodup_cons.mp hkeys2).2)).1 hmem
      exact count_newCtor_entry_zero reg isIf b p.1 p.2 hk2 hk1
    rw [List.map_map, hz, hskip, count_newCtor_value_entry reg isIf b r2 hb hIf hExp]
    simp
  · unfold emitRecorderItems
    rw [List.mem_flatten]
    refine ⟨entryItems reg isIf b r2, List.mem_map.mpr ⟨(b, r2), h2, rfl⟩, ?_⟩
    rw [entryItems_value reg isIf b r2 hb]
    simp
  · simp [recorderNameFor, hb]

/-- C8 witness (for the amended theorem). -/
theorem recorder_emission_spec_witness :
    (emitRecorderItems
        [((("*foo").data), (("_foo_Rec").data)), ((("foo").data), (("_foo_Rec").data))]
        (fun _ => false)).count (emitItem.newCtor (("foo").data)) = 1 ∧
    entryItems
        [((("*foo").data), (("_foo_Rec").data)), ((("foo").data), (("_foo_Rec").data))]
        (fun _ => false) ('*' :: ("foo").data) (("_foo_Rec").data) = [] ∧
    emitItem.objExpect (("foo").data) (("_foo_Rec").data) ∈
      emitRecorderItems
        [((("*foo").data), (("_foo_Rec").data)), ((("foo").data), (("_foo_Rec").data))]
        (fun _ => false) ∧
    recorderNameFor ('*' :: ("foo").data) = recorderNameFor (("foo").data) :=
  recorder_emission_spec
    [((("*foo").data), (("_foo_Rec").data)), ((("foo").data), (("_foo_Rec").data))]
    (fun _ => false) (("foo").data) (("_foo_Rec").data) (("_foo_Rec").data)
    (by decide) (by decide) (by decide) (by decide) rfl (by decide)

end WithMock
